import Mathlib

/-!
Leader-election sidecar (`main.go`): model and properties.

A shallow embedding of `main.go`: flag validation, the start-up sequence of
`main`, the HTTP handlers registered by `serveHTTP`, the updater goroutine
that copies leadership identities into the `leader` variable, and the
configuration handed to the leader elector by `runLeaderElection`.

Conventions.
* A Go `string` is a sequence of bytes; bytes are natural numbers below 256.
* A Go `error` is `Option GoError`; `none` is `nil`.
* `time.Duration` is an integer number of nanoseconds.
* The collaborators outside the file (client construction, the elector's
  constructor, the listener) appear as fields of `World`.
-/

namespace LeaderElection

/-! ## Strings and errors -/

/-- A Go string: a sequence of bytes, each a natural number below 256. -/
abbrev GoString := List Nat

/-- The bytes of an ASCII literal of the source text. -/
def lit (s : String) : GoString := s.data.map Char.toNat

/-- A non-nil Go error value. `id` stands for the identity of the allocated
value (Go compares error values of pointer type by identity); `wrap` is an
error with an `Unwrap` method, as built by `fmt.Errorf` with `%w`. -/
inductive GoError where
  | leaf (id : Nat) (text : String)
  | wrap (id : Nat) (text : String) (inner : GoError)
  deriving DecidableEq

/-- The chain walk of `errors.Is` on a non-nil error: compare, then unwrap. -/
def GoError.chainHas : GoError → GoError → Bool
  | .leaf i t, target => decide (GoError.leaf i t = target)
  | .wrap i t inner, target =>
      decide (GoError.wrap i t inner = target) || inner.chainHas target

/-- Go `errors.Is(err, target)` for a non-nil `target`: a nil `err` is never
the target; otherwise the chain of `err` is searched. -/
def errorsIs (err : Option GoError) (target : GoError) : Bool :=
  match err with
  | none => false
  | some e => e.chainHas target

/-- The sentinel `http.ErrServerClosed`. -/
def ErrServerClosed : GoError := .leaf 0 "http: Server closed"

/-- One second, in nanoseconds (`time.Second`). -/
def second : Int := 1000000000

/-! ## Flags -/

/-- The values of the command-line flags after `flags.Parse`. -/
structure Flags where
  holderId : GoString
  leaseName : GoString
  leaseDuration : Int
  leaseRenewDuration : Int
  namespace_ : GoString
  kubeconfig : GoString
  addr : GoString
  deriving DecidableEq

/-- The flag defaults of the `var` block, for a generated holder identity. -/
def defaultFlags (uuid : GoString) : Flags :=
  { holderId := uuid
    leaseName := lit ""
    leaseDuration := 10 * second
    leaseRenewDuration := 5 * second
    namespace_ := lit "default"
    kubeconfig := lit ""
    addr := lit ":4040" }

/-- The shutdown grace period, `gracePeriod = 5 * time.Second`. -/
def gracePeriod : Int := 5 * second

/-- The error built by `validateFlags`. -/
def errMissingLeaseName : GoError := .leaf 1 "missing flag --lease-name"

/-- Go `validateFlags`: an error when `*leaseName == ""`, else nil. -/
def validateFlags (f : Flags) : Option GoError :=
  if f.leaseName = lit "" then some errMissingLeaseName else none

/-! ## Client construction -/

/-- A `*rest.Config`, by handle. -/
structure RestConfig where
  handle : Nat
  deriving DecidableEq

/-- A `*kubernetes.Clientset`, by handle. -/
structure Clientset where
  handle : Nat
  deriving DecidableEq

/-- The configuration literal passed to `leaderelection.NewLeaderElector`. -/
structure LeaderElectionConfig where
  lockName : GoString
  lockNamespace : GoString
  identity : GoString
  leaseDuration : Int
  renewDeadline : Int
  retryPeriod : Int
  releaseOnCancel : Bool
  deriving DecidableEq

/-- The collaborators of `main.go` that live outside the file. -/
structure World where
  /-- The call `clientcmd.BuildConfigFromFlags("", path)`. -/
  buildConfigFromFlags : GoString → Except GoError RestConfig
  /-- The call `rest.InClusterConfig()`. -/
  inClusterConfig : Except GoError RestConfig
  /-- The call `kubernetes.NewForConfig(cfg)`. -/
  newForConfig : RestConfig → Except GoError Clientset
  /-- The value `time.Duration(JitterFactor * float64(retryPeriod))`, the
  floating-point product inside `NewLeaderElector`. -/
  jitter : Int → Int
  /-- The value returned by `s.ListenAndServe()` for a bind address. -/
  listenAndServe : GoString → Option GoError

/-- Go `getClientConfig`. -/
def getClientConfig (w : World) (f : Flags) : Except GoError RestConfig :=
  if f.kubeconfig ≠ lit "" then w.buildConfigFromFlags f.kubeconfig
  else w.inClusterConfig

/-- Go `buildClient`. -/
def buildClient (w : World) (f : Flags) : Except GoError Clientset :=
  match getClientConfig w f with
  | .error err => .error (.wrap 2 "failed to build kubernetes config" err)
  | .ok cfg =>
    match w.newForConfig cfg with
    | .error err => .error (.wrap 3 "failed to build kubernetes client" err)
    | .ok cs => .ok cs

/-! ## UTF-8 (package `unicode/utf8`) -/

/-- The replacement rune U+FFFD, `utf8.RuneError`. -/
def RuneError : Nat := 0xFFFD

/-- Bytes below `utf8.RuneSelf` are single-byte runes. -/
def RuneSelf : Nat := 0x80

/-- The largest code point, `utf8.MaxRune`. -/
def MaxRune : Nat := 0x10FFFF

/-- The table `first` of package utf8, by ranges of the first byte:
`as` = 0xF0 (ASCII), `xx` = 0xF1 (invalid), and `s1` .. `s7`, whose low three
bits give the size and whose high four bits index `acceptRanges`. -/
def first (b : Nat) : Nat :=
  if b < 0x80 then 0xF0
  else if b < 0xC2 then 0xF1
  else if b < 0xE0 then 0x02
  else if b = 0xE0 then 0x13
  else if b < 0xED then 0x03
  else if b = 0xED then 0x23
  else if b < 0xF0 then 0x03
  else if b = 0xF0 then 0x34
  else if b < 0xF4 then 0x04
  else if b = 0xF4 then 0x44
  else 0xF1

/-- The table `acceptRanges` of package utf8: the range `(lo, hi)` allowed
for the second byte. -/
def acceptRanges (i : Nat) : Nat × Nat :=
  match i with
  | 0 => (0x80, 0xBF)
  | 1 => (0xA0, 0xBF)
  | 2 => (0x80, 0x9F)
  | 3 => (0x90, 0xBF)
  | 4 => (0x80, 0x8F)
  | _ => (0, 0)

/-- Go `utf8.DecodeRune` / `utf8.DecodeRuneInString`: the first rune of `s`
and its width in bytes; `(RuneError, 1)` for an invalid encoding and
`(RuneError, 0)` for the empty input. -/
def DecodeRune (s : List Nat) : Nat × Nat :=
  match s with
  | [] => (RuneError, 0)
  | s0 :: t =>
    if first s0 ≥ 0xF0 then
      (if first s0 = 0xF1 then RuneError else s0, 1)
    else if (s0 :: t).length < (first s0 &&& 7) then (RuneError, 1)
    else
      match t with
      | [] => (RuneError, 1)
      | s1 :: t1 =>
        if s1 < (acceptRanges (first s0 >>> 4)).1 ∨ (acceptRanges (first s0 >>> 4)).2 < s1 then
          (RuneError, 1)
        else if (first s0 &&& 7) ≤ 2 then
          ((s0 &&& 0x1F) <<< 6 ||| (s1 &&& 0x3F), 2)
        else
          match t1 with
          | [] => (RuneError, 1)
          | s2 :: t2 =>
            if s2 < 0x80 ∨ 0xBF < s2 then (RuneError, 1)
            else if (first s0 &&& 7) ≤ 3 then
              ((s0 &&& 0x0F) <<< 12 ||| (s1 &&& 0x3F) <<< 6 ||| (s2 &&& 0x3F), 3)
            else
              match t2 with
              | [] => (RuneError, 1)
              | s3 :: _ =>
                if s3 < 0x80 ∨ 0xBF < s3 then (RuneError, 1)
                else
                  ((s0 &&& 0x07) <<< 18 ||| (s1 &&& 0x3F) <<< 12 ||| (s2 &&& 0x3F) <<< 6
                    ||| (s3 &&& 0x3F), 4)

/-- Go `utf8.AppendRune` on an empty buffer: the UTF-8 encoding of `r`;
surrogates and values above `MaxRune` are encoded as U+FFFD. -/
def EncodeRune (r : Nat) : List Nat :=
  if r ≤ 0x7F then [r]
  else if r ≤ 0x7FF then [0xC0 ||| (r >>> 6), 0x80 ||| (r &&& 0x3F)]
  else if r > MaxRune ∨ (0xD800 ≤ r ∧ r ≤ 0xDFFF) then
    [0xE0 ||| (RuneError >>> 12), 0x80 ||| ((RuneError >>> 6) &&& 0x3F),
      0x80 ||| (RuneError &&& 0x3F)]
  else if r ≤ 0xFFFF then
    [0xE0 ||| (r >>> 12), 0x80 ||| ((r >>> 6) &&& 0x3F), 0x80 ||| (r &&& 0x3F)]
  else
    [0xF0 ||| (r >>> 18), 0x80 ||| ((r >>> 12) &&& 0x3F), 0x80 ||| ((r >>> 6) &&& 0x3F),
      0x80 ||| (r &&& 0x3F)]

/-- The loop of Go `utf8.ValidString`, by repeated decoding: every byte is
either ASCII or starts a well-formed multi-byte sequence. -/
def validLoop : Nat → List Nat → Bool
  | 0, s => decide (s = [])
  | _ + 1, [] => true
  | fuel + 1, b :: rest =>
    if b < RuneSelf then validLoop fuel rest
    else if (DecodeRune (b :: rest)).1 = RuneError ∧ (DecodeRune (b :: rest)).2 = 1 then false
    else validLoop fuel ((b :: rest).drop (DecodeRune (b :: rest)).2)

/-- Go `utf8.ValidString`. -/
def ValidString (s : GoString) : Bool := validLoop s.length s

/-! ## JSON encoding of a string (package `encoding/json`) -/

/-- The digit table `hex = "0123456789abcdef"`. -/
def hex (n : Nat) : Nat := (lit "0123456789abcdef").getD n 0

/-- The table `htmlSafeSet`: the ASCII bytes written without escaping when
HTML escaping is on: 0x20 .. 0x7F except the quote, the ampersand, the angle
brackets and the backslash. -/
def htmlSafeSet (b : Nat) : Bool :=
  decide (0x20 ≤ b ∧ b < 0x80 ∧ b ≠ 0x22 ∧ b ≠ 0x26 ∧ b ≠ 0x3C ∧ b ≠ 0x3E ∧ b ≠ 0x5C)

/-- The escape written by `appendString` for an ASCII byte outside
`htmlSafeSet`. Older releases write the backspace and the form feed with the
six-byte form as well; both forms read back as the same byte. -/
def escapeByte (b : Nat) : List Nat :=
  if b = 0x5C ∨ b = 0x22 then [0x5C, b]
  else if b = 0x08 then lit "\\b"
  else if b = 0x0C then lit "\\f"
  else if b = 0x0A then lit "\\n"
  else if b = 0x0D then lit "\\r"
  else if b = 0x09 then lit "\\t"
  else lit "\\u00" ++ [hex (b >>> 4), hex (b &&& 0xF)]

/-- The loop of `appendString` with `escapeHTML = true`, between the two
quotes: ASCII bytes are copied or escaped, an invalid byte becomes the six
bytes of the escape for U+FFFD, U+2028 and U+2029 are escaped, and every
other rune is copied. -/
def appendStringLoop : Nat → GoString → List Nat
  | 0, _ => []
  | _ + 1, [] => []
  | fuel + 1, b :: rest =>
    if b < RuneSelf then
      if htmlSafeSet b then b :: appendStringLoop fuel rest
      else escapeByte b ++ appendStringLoop fuel rest
    else if (DecodeRune ((b :: rest).take 4)).1 = RuneError
        ∧ (DecodeRune ((b :: rest).take 4)).2 = 1 then
      lit "\\ufffd" ++ appendStringLoop fuel rest
    else if (DecodeRune ((b :: rest).take 4)).1 = 0x2028
        ∨ (DecodeRune ((b :: rest).take 4)).1 = 0x2029 then
      lit "\\u202" ++ [hex ((DecodeRune ((b :: rest).take 4)).1 &&& 0xF)]
        ++ appendStringLoop fuel ((b :: rest).drop (DecodeRune ((b :: rest).take 4)).2)
    else
      (b :: rest).take (DecodeRune ((b :: rest).take 4)).2
        ++ appendStringLoop fuel ((b :: rest).drop (DecodeRune ((b :: rest).take 4)).2)

/-- Go `appendString(dst, src, true)` on an empty `dst`: the JSON string
literal for `src`. -/
def appendString (src : GoString) : List Nat :=
  [0x22] ++ appendStringLoop src.length src ++ [0x22]

/-- The response type `LeaderResponse`, with its single field tagged
`json:"leader"`. -/
structure LeaderResponse where
  Leader : GoString
  deriving DecidableEq

/-- Go `json.Marshal(&lr)` for a `LeaderResponse`: one member, named by the
field tag. Marshalling this type cannot fail. -/
def Marshal (lr : LeaderResponse) : List Nat :=
  lit "\x7b\"leader\":" ++ appendString lr.Leader ++ lit "\x7d"

/-! ## JSON decoding of a `LeaderResponse` (package `encoding/json`) -/

/-- The value of a hexadecimal digit, as in the loop of `getu4`. -/
def hexVal (c : Nat) : Option Nat :=
  if 0x30 ≤ c ∧ c ≤ 0x39 then some (c - 0x30)
  else if 0x61 ≤ c ∧ c ≤ 0x66 then some (c - 0x61 + 10)
  else if 0x41 ≤ c ∧ c ≤ 0x46 then some (c - 0x41 + 10)
  else none

/-- Go `getu4`: the rune of a six-byte escape, a backslash, the letter u and
four hexadecimal digits, at the head of `s`; `none` where Go returns -1. -/
def getu4 (s : List Nat) : Option Nat :=
  match s with
  | s0 :: s1 :: a :: b :: c :: d :: _ =>
    if s0 ≠ 0x5C ∨ s1 ≠ 0x75 then none
    else
      match hexVal a, hexVal b, hexVal c, hexVal d with
      | some a, some b, some c, some d => some (((a * 16 + b) * 16 + c) * 16 + d)
      | _, _, _, _ => none
  | _ => none

/-- Go `utf16.IsSurrogate`. -/
def IsSurrogate (r : Nat) : Bool := decide (0xD800 ≤ r ∧ r < 0xE000)

/-- Go `utf16.DecodeRune` on a first unit `r1` and an optional second unit:
the code point of a valid surrogate pair, else U+FFFD. -/
def utf16DecodeRune (r1 : Nat) (r2 : Option Nat) : Nat :=
  match r2 with
  | some r2 =>
    if 0xD800 ≤ r1 ∧ r1 < 0xDC00 ∧ 0xDC00 ≤ r2 ∧ r2 < 0xE000 then
      ((r1 - 0xD800) <<< 10 ||| (r2 - 0xDC00)) + 0x10000
    else 0xFFFD
  | none => 0xFFFD

/-- The scan of a JSON string literal after its opening quote, up to the
closing quote, with the unquoting of `unquoteBytes`: escapes are replaced,
ASCII is copied, other bytes are decoded and re-encoded (which coerces
invalid UTF-8 to U+FFFD); a control character, a bad escape or a missing
closing quote is an error. Returns the decoded string and the input after
the closing quote. -/
def unquoteLoop : Nat → List Nat → GoString → Option (GoString × List Nat)
  | 0, _, _ => none
  | _ + 1, [], _ => none
  | fuel + 1, c :: rest, out =>
    if c = 0x22 then some (out, rest)
    else if c = 0x5C then
      match rest with
      | [] => none
      | e :: rest1 =>
        if e = 0x22 ∨ e = 0x5C ∨ e = 0x2F then unquoteLoop fuel rest1 (out ++ [e])
        else if e = 0x62 then unquoteLoop fuel rest1 (out ++ [0x08])
        else if e = 0x66 then unquoteLoop fuel rest1 (out ++ [0x0C])
        else if e = 0x6E then unquoteLoop fuel rest1 (out ++ [0x0A])
        else if e = 0x72 then unquoteLoop fuel rest1 (out ++ [0x0D])
        else if e = 0x74 then unquoteLoop fuel rest1 (out ++ [0x09])
        else if e = 0x75 then
          match getu4 (c :: rest) with
          | none => none
          | some rr =>
            if IsSurrogate rr then
              if utf16DecodeRune rr (getu4 (rest.drop 5)) ≠ 0xFFFD then
                unquoteLoop fuel (rest.drop 11)
                  (out ++ EncodeRune (utf16DecodeRune rr (getu4 (rest.drop 5))))
              else unquoteLoop fuel (rest.drop 5) (out ++ EncodeRune 0xFFFD)
            else unquoteLoop fuel (rest.drop 5) (out ++ EncodeRune rr)
        else none
    else if c < 0x20 then none
    else if c < RuneSelf then unquoteLoop fuel rest (out ++ [c])
    else
      unquoteLoop fuel ((c :: rest).drop (DecodeRune (c :: rest)).2)
        (out ++ EncodeRune (DecodeRune (c :: rest)).1)

/-- A JSON string literal at the head of `data`: its decoded value and the
input after it. -/
def parseString (data : List Nat) : Option (GoString × List Nat) :=
  match data with
  | [] => none
  | c :: rest => if c = 0x22 then unquoteLoop rest.length rest [] else none

/-- JSON insignificant whitespace: space, tab, carriage return, line feed. -/
def isSpace (c : Nat) : Bool := decide (c = 0x20 ∨ c = 0x09 ∨ c = 0x0D ∨ c = 0x0A)

/-- Skip leading whitespace. -/
def skipSpace : List Nat → List Nat
  | [] => []
  | c :: rest => if isSpace c then skipSpace rest else c :: rest

/-- The members of a JSON object whose values are strings, from the first key
to the closing brace: a member named `leader` sets the field, the last one
winning, and other members are skipped. Nothing but whitespace may follow
the object. Values that are not strings are outside this reader. -/
def decodeMembers : Nat → List Nat → LeaderResponse → Option LeaderResponse
  | 0, _, _ => none
  | fuel + 1, data, lr =>
    match parseString data with
    | none => none
    | some (key, r1) =>
      match skipSpace r1 with
      | [] => none
      | colon :: r2 =>
        if colon ≠ 0x3A then none
        else
          match parseString (skipSpace r2) with
          | none => none
          | some (val, r3) =>
            match skipSpace r3 with
            | [] => none
            | sep :: r4 =>
              if sep = 0x2C then
                decodeMembers fuel (skipSpace r4) (if key = lit "leader" then ⟨val⟩ else lr)
              else if sep = 0x7D then
                if skipSpace r4 = [] then some (if key = lit "leader" then ⟨val⟩ else lr)
                else none
              else none

/-- Go `json.Unmarshal(data, &lr)` into a zero `LeaderResponse`, for JSON
objects whose member values are strings. -/
def Unmarshal (data : List Nat) : Option LeaderResponse :=
  match skipSpace data with
  | [] => none
  | open_ :: r =>
    if open_ ≠ 0x7B then none
    else
      match skipSpace r with
      | [] => none
      | c :: r1 =>
        if c = 0x7D then (if skipSpace r1 = [] then some ⟨[]⟩ else none)
        else decodeMembers data.length (c :: r1) ⟨[]⟩

/-! ## The HTTP handlers of `serveHTTP` -/

/-- The parts of an `*http.Request` the handlers read. -/
structure Request where
  method : GoString
  path : GoString
  deriving DecidableEq

/-- The state of an `http.ResponseWriter`: header map, status line (unset
until written) and body. -/
structure ResponseWriter where
  header : List (GoString × GoString)
  status : Option Nat
  body : GoString
  deriving DecidableEq

/-- A fresh response writer, as the server hands it to a handler. -/
def newResponseWriter : ResponseWriter := { header := [], status := none, body := [] }

/-- Go `w.Header().Del(key)`; without effect once the status is written. -/
def ResponseWriter.del (w : ResponseWriter) (key : GoString) : ResponseWriter :=
  if w.status.isSome then w
  else { w with header := w.header.filter (fun p => decide (p.1 ≠ key)) }

/-- Go `w.Header().Set(key, value)`; without effect once the status is
written. -/
def ResponseWriter.set (w : ResponseWriter) (key value : GoString) : ResponseWriter :=
  if w.status.isSome then w
  else { w with header := (key, value) :: w.header.filter (fun p => decide (p.1 ≠ key)) }

/-- Go `w.WriteHeader(code)`: only the first call counts. -/
def ResponseWriter.WriteHeader (w : ResponseWriter) (code : Nat) : ResponseWriter :=
  if w.status.isSome then w else { w with status := some code }

/-- Go `w.Write(b)`: writes status 200 first when no status was written. -/
def ResponseWriter.Write (w : ResponseWriter) (b : GoString) : ResponseWriter :=
  { w.WriteHeader 200 with body := (w.WriteHeader 200).body ++ b }

/-- Go `http.NotFound(w, r)`, which is `http.Error(w, "404 page not found",
http.StatusNotFound)`. -/
def NotFound (w : ResponseWriter) : ResponseWriter :=
  ((((w.del (lit "Content-Length")).set (lit "Content-Type") (lit "text/plain; charset=utf-8")).set
    (lit "X-Content-Type-Options") (lit "nosniff")).WriteHeader 404).Write
      (lit "404 page not found\n")

/-- The closure `healthHandler` of `serveHTTP`. -/
def healthHandler (w : ResponseWriter) (r : Request) : ResponseWriter :=
  if r.method ≠ lit "GET" then NotFound w
  else (w.WriteHeader 200).Write (lit "ok\n")

/-- The closure registered for `/api/leader`, reading the variable `leader`
of `serveHTTP`. -/
def leaderHandler (leader : GoString) (w : ResponseWriter) (r : Request) : ResponseWriter :=
  if r.method ≠ lit "GET" then NotFound w
  else ((w.set (lit "Content-Type") (lit "application/json")).WriteHeader 200).Write
    (Marshal { Leader := leader })

/-- The three patterns registered on the `ServeMux`; a pattern without a
trailing slash matches its path alone, for every method. `none` for a path
that is none of them (redirects and the default not-found handler of the mux
are outside this model). -/
def muxHandler (leader : GoString) (path : GoString) :
    Option (ResponseWriter → Request → ResponseWriter) :=
  if path = lit "/healthz" then some healthHandler
  else if path = lit "/readyz" then some healthHandler
  else if path = lit "/api/leader" then some (leaderHandler leader)
  else none

/-- The response of the server to a request, for the current value of
`leader`. -/
def serve (leader : GoString) (r : Request) : Option ResponseWriter :=
  (muxHandler leader r.path).map (fun h => h newResponseWriter r)

/-! ## The updater goroutine of `serveHTTP` -/

/-- What one `select` of the updater loop receives: a value from `leaderC`,
or the closed `ctx.Done()` channel. -/
inductive Event where
  | newLeader (identity : GoString)
  | done
  deriving DecidableEq

/-- The state written by the updater goroutine: the variable `leader`, the
timeouts of the calls to `s.Shutdown` made so far, and the number of deferred
`cancel` calls. -/
structure Updater where
  leader : GoString
  shutdowns : List Int
  deferred : Nat
  deriving DecidableEq

/-- How an iteration of the `for` loop ends: with the next iteration, or by
returning from the goroutine. -/
inductive Control where
  | next
  | ret
  deriving DecidableEq

/-- The state at the start of `serveHTTP`: `leader := ""`. -/
def initUpdater : Updater := { leader := lit "", shutdowns := [], deferred := 0 }

/-- The body of the `for` loop: one `select`. Neither case returns or breaks. -/
def updaterBody (u : Updater) (e : Event) : Updater × Control :=
  match e with
  | .newLeader l => ({ u with leader := l }, .next)
  | .done =>
    ({ u with shutdowns := u.shutdowns ++ [gracePeriod], deferred := u.deferred + 1 }, .next)

/-- The `for` loop on a sequence of received events; at the end of the
sequence the goroutine is waiting in `select`. -/
def updaterLoop (u : Updater) : List Event → Updater × Control
  | [] => (u, .next)
  | e :: es =>
    match updaterBody u e with
    | (u1, .next) => updaterLoop u1 es
    | (u1, .ret) => (u1, .ret)

/-! ## Leader election set-up and `main` -/

/-- The literal passed to `NewLeaderElector` by `runLeaderElection`. -/
def electionConfig (f : Flags) : LeaderElectionConfig :=
  { lockName := f.leaseName
    lockNamespace := f.namespace_
    identity := f.holderId
    leaseDuration := f.leaseDuration
    renewDeadline := f.leaseRenewDuration
    retryPeriod := 3 * second
    releaseOnCancel := true }

/-- The checks of `leaderelection.NewLeaderElector` (client-go) on the
durations; the lock and the callbacks it also checks are always set by
`runLeaderElection`. `jitter` is the floating-point product in the second
check. -/
def NewLeaderElector (jitter : Int → Int) (lec : LeaderElectionConfig) : Option GoError :=
  if lec.leaseDuration ≤ lec.renewDeadline then
    some (.leaf 10 "leaseDuration must be greater than renewDeadline")
  else if lec.renewDeadline ≤ jitter lec.retryPeriod then
    some (.leaf 11 "renewDeadline must be greater than retryPeriod*JitterFactor")
  else if lec.leaseDuration < 1 then some (.leaf 12 "leaseDuration must be greater than zero")
  else if lec.renewDeadline < 1 then some (.leaf 13 "renewDeadline must be greater than zero")
  else if lec.retryPeriod < 1 then some (.leaf 14 "retryPeriod must be greater than zero")
  else none

/-- A Go channel of strings: capacity and buffered values. -/
structure Chan where
  cap : Nat
  buf : List GoString
  deriving DecidableEq

/-- Go `make(chan string)`: an unbuffered channel. -/
def makeChan : Chan := { cap := 0, buf := [] }

/-- The calls `main` makes that reach outside the process or start a
goroutine, in order. -/
inductive Effect where
  | buildClient
  | contextWithCancelOnSignals
  | newLeaderElector (lec : LeaderElectionConfig)
  | goElectorRun (lec : LeaderElectionConfig)
  | goUpdater
  | listenAndServe (addr : GoString)
  deriving DecidableEq

/-- Go `runLeaderElection`: the effects, and the channel or the error. -/
def runLeaderElection (w : World) (f : Flags) : List Effect × Except GoError Chan :=
  match NewLeaderElector w.jitter (electionConfig f) with
  | some err =>
    ([.newLeaderElector (electionConfig f)],
      .error (.wrap 4 "failed to create leader-elector" err))
  | none =>
    ([.newLeaderElector (electionConfig f), .goElectorRun (electionConfig f)], .ok makeChan)

/-- Go `serveHTTP` as seen by `main`: the updater goroutine is started, then
`s.ListenAndServe()` runs and its error is returned. -/
def serveHTTP (w : World) (f : Flags) : List Effect × Option GoError :=
  ([.goUpdater, .listenAndServe f.addr], w.listenAndServe f.addr)

/-- How `main` ends: by returning (exit status 0), in `errors.Must` on a
non-nil error, or in `logger.Fatal`; the last two end the process with a
non-zero status. -/
inductive Outcome where
  | returned
  | mustAbort (err : GoError)
  | fatal (err : Option GoError)
  deriving DecidableEq

/-- Whether the process exit status is non-zero. -/
def Outcome.nonZero : Outcome → Bool
  | .returned => false
  | .mustAbort _ => true
  | .fatal _ => true

/-- Go `main`: the effects performed, in order, and how it ends. -/
def main (w : World) (f : Flags) : List Effect × Outcome :=
  match validateFlags f with
  | some err => ([], .mustAbort err)
  | none =>
    match buildClient w f with
    | .error err => ([.buildClient], .mustAbort err)
    | .ok _ =>
      match runLeaderElection w f with
      | (effs, .error err) =>
        (.buildClient :: .contextWithCancelOnSignals :: effs, .mustAbort err)
      | (effs, .ok _) =>
        (.buildClient :: .contextWithCancelOnSignals :: effs ++ (serveHTTP w f).1,
          if errorsIs (serveHTTP w f).2 ErrServerClosed then .returned
          else .fatal (serveHTTP w f).2)

/-! ## The send in `OnNewLeader` -/

/-- One scheduling instant as seen by a blocked sender: whether a receiver is
waiting on the channel, and whether the context is cancelled. -/
structure Tick where
  receiverReady : Bool
  cancelled : Bool
  deriving DecidableEq

/-- A send `ch <- v` at one instant (Go language specification): it proceeds
when a receiver is ready or the buffer has room, and blocks otherwise. -/
def Chan.trySend (ch : Chan) (v : GoString) (receiverReady : Bool) : Option Chan :=
  if receiverReady then some ch
  else if ch.buf.length < ch.cap then some { ch with buf := ch.buf ++ [v] }
  else none

/-- Where the `OnNewLeader` callback stands: at its send, or returned. -/
inductive CallbackPC where
  | sending
  | returned
  deriving DecidableEq

/-- The callback `OnNewLeader` at one instant: the statement
`res <- identity` is a plain send, outside any `select`, so the cancellation
flag of the instant is not consulted. -/
def onNewLeaderStep (ch : Chan) (identity : GoString) (t : Tick) : CallbackPC × Chan :=
  match ch.trySend identity t.receiverReady with
  | some ch1 => (.returned, ch1)
  | none => (.sending, ch)

/-- The callback after `n` instants of a schedule. -/
def onNewLeaderRun (ch : Chan) (identity : GoString) (sched : Nat → Tick) :
    Nat → CallbackPC × Chan
  | 0 => (.sending, ch)
  | n + 1 =>
    match onNewLeaderRun ch identity sched n with
    | (.returned, c) => (.returned, c)
    | (.sending, c) => onNewLeaderStep c identity (sched n)

/-! ## Process shutdown -/

/-- The threads of the process that take part in shutdown, and the signal. -/
inductive Actor where
  | signal
  | elector
  | updater
  | mainThread
  deriving DecidableEq

/-- The state shutdown acts on: the shared context, the holder named in the
lease record, whether the goroutine `le.Run` is still running, whether
`s.Shutdown` was called, and the exit status once `main` has returned. -/
structure Proc where
  cancelled : Bool
  leaseHolder : Option GoString
  electorRunning : Bool
  shutdownCalled : Bool
  exited : Option Nat
  deriving DecidableEq

/-- A process that holds the lease and serves. -/
def leading (lec : LeaderElectionConfig) : Proc :=
  { cancelled := false, leaseHolder := some lec.identity, electorRunning := true,
    shutdownCalled := false, exited := none }

/-- One step of one actor. After `main` has returned the process is gone and
no goroutine runs. The signal cancels the context; the elector, on a
cancelled context, releases the lease when `releaseOnCancel` is set and
stops; the updater, on a cancelled context, calls `s.Shutdown`; and `main`,
blocked in `s.ListenAndServe()`, gets `http.ErrServerClosed` as soon as
`Shutdown` was called and returns, with nothing in between. -/
def procStep (lec : LeaderElectionConfig) (p : Proc) (a : Actor) : Proc :=
  if p.exited.isSome then p
  else
    match a with
    | .signal => { p with cancelled := true }
    | .elector =>
      if p.cancelled ∧ p.electorRunning then
        { p with
          electorRunning := false
          leaseHolder :=
            if lec.releaseOnCancel ∧ p.leaseHolder = some lec.identity then none
            else p.leaseHolder }
      else p
    | .updater => if p.cancelled then { p with shutdownCalled := true } else p
    | .mainThread =>
      if p.shutdownCalled then
        { p with exited := some (if errorsIs (some ErrServerClosed) ErrServerClosed then 0 else 1) }
      else p

/-- A run of the process under a schedule of actors. -/
def procRun (lec : LeaderElectionConfig) (p : Proc) (sched : List Actor) : Proc :=
  sched.foldl (procStep lec) p

/-- The response written by `http.NotFound` on a fresh writer. -/
def notFoundResponse : ResponseWriter :=
  { header := [(lit "X-Content-Type-Options", lit "nosniff"),
      (lit "Content-Type", lit "text/plain; charset=utf-8")]
    status := some 404
    body := lit "404 page not found\n" }

/-! ## Reads of `leader` by the handlers -/

/-- The identity carried by a `newLeader` event. -/
def Event.identity? : Event → Option GoString
  | .newLeader l => some l
  | .done => none

/-- The writes to the variable `leader` of `serveHTTP`, in program order: the
initialisation `leader := ""`, then one assignment `leader = newLeader` for
each identity the updater goroutine received. -/
def leaderWrites (evs : List Event) : List GoString :=
  lit "" :: evs.filterMap Event.identity?

/-- A read of `leader` by a handler goroutine. The updater closure assigns the
variable and the handler closure reads it; neither takes a lock, uses an
atomic or communicates with the other, so no assignment of the updater is
ordered before or after the read, and by the Go memory model each word read
may observe any of the writes. A string is two words, a data pointer and a
length: `dataOf` and `lenOf` are the positions in `leaderWrites` of the write
observed for each. The read yields the first `length` bytes of the observed
data, which is the written value when both words come from one write, and
`none` when the observed length runs past the observed data. -/
def racyRead (evs : List Event) (dataOf lenOf : Nat) : Option GoString :=
  match (leaderWrites evs)[dataOf]?, (leaderWrites evs)[lenOf]? with
  | some d, some l => if l.length ≤ d.length then some (d.take l.length) else none
  | _, _ => none

/-- The response to a request whose handler reads `leader` as `racyRead`
describes, after the updater received `evs`. -/
def serveRacy (evs : List Event) (dataOf lenOf : Nat) (r : Request) : Option ResponseWriter :=
  match racyRead evs dataOf lenOf with
  | some v => serve v r
  | none => none

/-! ## Sample inputs -/

/-- Two leadership changes received by the updater, in this order. -/
def twoLeaders : List Event :=
  [Event.newLeader (lit "holder-10"), Event.newLeader (lit "node-2")]

/-- A world in which a cluster configuration is found, the client is built,
and the listener ends with an error that wraps `http.ErrServerClosed`. -/
def sampleWorld : World :=
  { buildConfigFromFlags := fun _ => .ok { handle := 1 }
    inClusterConfig := .ok { handle := 0 }
    newForConfig := fun c => .ok { handle := c.handle }
    jitter := fun r => r * 12 / 10
    listenAndServe := fun _ => some (.wrap 20 "serve" ErrServerClosed) }

/-- The default flags with `--lease-name=demo`. -/
def sampleFlags : Flags := { defaultFlags (lit "holder-1") with leaseName := lit "demo" }

/-- Flags with `--lease-name=demo --lease-duration=5s --lease-renew-duration=10s`. -/
def swappedFlags : Flags :=
  { defaultFlags (lit "holder-1") with
    leaseName := lit "demo", leaseDuration := 5 * second, leaseRenewDuration := 10 * second }

/-- A schedule in which no receiver is ever waiting and the context is
cancelled throughout. -/
def absentConsumer : Nat → Tick := fun _ => { receiverReady := false, cancelled := true }

/-- A schedule in which the receiver arrives at the third instant. -/
def slowConsumer : Nat → Tick := fun n => { receiverReady := decide (n = 2), cancelled := false }

/-! ## Bit operations as arithmetic -/

theorem and_mask5 (x : Nat) : x &&& 0x1F = x % 32 := Nat.and_pow_two_sub_one_eq_mod x 5
theorem and_mask4 (x : Nat) : x &&& 0x0F = x % 16 := Nat.and_pow_two_sub_one_eq_mod x 4
theorem and_mask3 (x : Nat) : x &&& 0x07 = x % 8 := Nat.and_pow_two_sub_one_eq_mod x 3
theorem and_mask6 (x : Nat) : x &&& 0x3F = x % 64 := Nat.and_pow_two_sub_one_eq_mod x 6

theorem or_low6 (k x : Nat) (h : x < 64) : 64 * k ||| x = 64 * k + x :=
  (Nat.mul_add_lt_is_or (show x < 2 ^ 6 from h) k).symm

theorem or_low12 (k x : Nat) (h : x < 4096) : 4096 * k ||| x = 4096 * k + x :=
  (Nat.mul_add_lt_is_or (show x < 2 ^ 12 from h) k).symm

theorem or_low18 (k x : Nat) (h : x < 262144) : 262144 * k ||| x = 262144 * k + x :=
  (Nat.mul_add_lt_is_or (show x < 2 ^ 18 from h) k).symm

theorem shl6 (a : Nat) : a <<< 6 = 64 * a := by rw [Nat.shiftLeft_eq]; omega
theorem shl12 (a : Nat) : a <<< 12 = 4096 * a := by rw [Nat.shiftLeft_eq]; omega
theorem shl18 (a : Nat) : a <<< 18 = 262144 * a := by rw [Nat.shiftLeft_eq]; omega

theorem bits2 (a b : Nat) : (a &&& 0x1F) <<< 6 ||| (b &&& 0x3F) = a % 32 * 64 + b % 64 := by
  rw [and_mask5, and_mask6, shl6, or_low6 _ _ (by omega)]; omega

theorem bits3 (a b c : Nat) :
    (a &&& 0x0F) <<< 12 ||| (b &&& 0x3F) <<< 6 ||| (c &&& 0x3F)
      = a % 16 * 4096 + b % 64 * 64 + c % 64 := by
  rw [and_mask4, and_mask6, and_mask6, shl12, shl6, or_low12 _ _ (by omega),
    show 4096 * (a % 16) + 64 * (b % 64) = 64 * (64 * (a % 16) + b % 64) by omega,
    or_low6 _ _ (by omega)]
  omega

theorem bits4 (a b c d : Nat) :
    (a &&& 0x07) <<< 18 ||| (b &&& 0x3F) <<< 12 ||| (c &&& 0x3F) <<< 6 ||| (d &&& 0x3F)
      = a % 8 * 262144 + b % 64 * 4096 + c % 64 * 64 + d % 64 := by
  rw [and_mask3, and_mask6, and_mask6, and_mask6, shl18, shl12, shl6, or_low18 _ _ (by omega),
    show 262144 * (a % 8) + 4096 * (b % 64) = 4096 * (64 * (a % 8) + b % 64) by omega,
    or_low12 _ _ (by omega),
    show 4096 * (64 * (a % 8) + b % 64) + 64 * (c % 64)
      = 64 * (4096 * (a % 8) + 64 * (b % 64) + c % 64) by omega,
    or_low6 _ _ (by omega)]
  omega

theorem decode2 (s0 s1 : Nat) (t : List Nat) (h0 : 0xC2 ≤ s0) (h0' : s0 < 0xE0)
    (h1 : 0x80 ≤ s1) (h1' : s1 ≤ 0xBF) :
    DecodeRune (s0 :: s1 :: t) = (s0 % 32 * 64 + s1 % 64, 2) := by
  have hf : first s0 = 0x02 := by
    unfold first
    simp only [show ¬ s0 < 0x80 by omega, show ¬ s0 < 0xC2 by omega, h0', if_true, if_false]
  simp only [DecodeRune, hf, bits2]
  simp [acceptRanges, and_mask3, Nat.shiftRight_eq_div_pow]
  rw [if_neg (by omega), if_neg (by omega)]

theorem decode3 (s0 s1 s2 : Nat) (t : List Nat) (h0 : 0xE0 ≤ s0) (h0' : s0 < 0xF0)
    (h1 : 0x80 ≤ s1) (h1' : s1 ≤ 0xBF) (ha : s0 = 0xE0 → 0xA0 ≤ s1) (hb : s0 = 0xED → s1 ≤ 0x9F)
    (h2 : 0x80 ≤ s2) (h2' : s2 ≤ 0xBF) :
    DecodeRune (s0 :: s1 :: s2 :: t) = (s0 % 16 * 4096 + s1 % 64 * 64 + s2 % 64, 3) := by
  have hf : (s0 = 0xE0 ∧ first s0 = 0x13) ∨ first s0 = 0x03 ∨ (s0 = 0xED ∧ first s0 = 0x23) := by
    clear ha hb
    interval_cases s0 <;> simp [first]
  rcases hf with ⟨h, hf⟩ | hf | ⟨h, hf⟩
  all_goals
    simp only [DecodeRune, hf, bits3]
    simp [acceptRanges, and_mask3, Nat.shiftRight_eq_div_pow]
    rw [if_neg (by omega), if_neg (by omega), if_neg (by omega)]

theorem decode4 (s0 s1 s2 s3 : Nat) (t : List Nat) (h0 : 0xF0 ≤ s0) (h0' : s0 < 0xF5)
    (h1 : 0x80 ≤ s1) (h1' : s1 ≤ 0xBF) (ha : s0 = 0xF0 → 0x90 ≤ s1) (hb : s0 = 0xF4 → s1 ≤ 0x8F)
    (h2 : 0x80 ≤ s2) (h2' : s2 ≤ 0xBF) (h3 : 0x80 ≤ s3) (h3' : s3 ≤ 0xBF) :
    DecodeRune (s0 :: s1 :: s2 :: s3 :: t)
      = (s0 % 8 * 262144 + s1 % 64 * 4096 + s2 % 64 * 64 + s3 % 64, 4) := by
  have hf : (s0 = 0xF0 ∧ first s0 = 0x34) ∨ first s0 = 0x04 ∨ (s0 = 0xF4 ∧ first s0 = 0x44) := by
    clear ha hb
    interval_cases s0 <;> simp [first]
  rcases hf with ⟨h, hf⟩ | hf | ⟨h, hf⟩
  all_goals
    simp only [DecodeRune, hf, bits4]
    simp [acceptRanges, and_mask3, Nat.shiftRight_eq_div_pow]
    rw [if_neg (by omega), if_neg (by omega), if_neg (by omega), if_neg (by omega)]

theorem or_low5 (k x : Nat) (h : x < 32) : 32 * k ||| x = 32 * k + x :=
  (Nat.mul_add_lt_is_or (show x < 2 ^ 5 from h) k).symm

theorem or_low4 (k x : Nat) (h : x < 16) : 16 * k ||| x = 16 * k + x :=
  (Nat.mul_add_lt_is_or (show x < 2 ^ 4 from h) k).symm

theorem or_c0 (x : Nat) (h : x < 64) : 0xC0 ||| x = 192 + x := or_low6 3 x h
theorem or_80 (x : Nat) (h : x < 64) : 0x80 ||| x = 128 + x := or_low6 2 x h
theorem or_e0 (x : Nat) (h : x < 32) : 0xE0 ||| x = 224 + x := or_low5 7 x h
theorem or_f0 (x : Nat) (h : x < 16) : 0xF0 ||| x = 240 + x := or_low4 15 x h

theorem encode2 (r : Nat) (h1 : 0x80 ≤ r) (h2 : r ≤ 0x7FF) :
    EncodeRune r = [192 + r / 64, 128 + r % 64] := by
  unfold EncodeRune
  rw [if_neg (by omega), if_pos h2, and_mask6, Nat.shiftRight_eq_div_pow,
    or_c0 _ (by norm_num; omega), or_80 _ (by omega)]

theorem encode3 (r : Nat) (h1 : 0x800 ≤ r) (h2 : r ≤ 0xFFFF) (hs : r < 0xD800 ∨ 0xDFFF < r) :
    EncodeRune r = [224 + r / 4096, 128 + r / 64 % 64, 128 + r % 64] := by
  unfold EncodeRune MaxRune
  rw [if_neg (by omega), if_neg (by omega), if_neg (by omega), if_pos h2]
  simp only [and_mask6, Nat.shiftRight_eq_div_pow]
  rw [or_e0 _ (by norm_num; omega), or_80 _ (by omega), or_80 _ (by omega)]

theorem encode4 (r : Nat) (h1 : 0x10000 ≤ r) (h2 : r ≤ 0x10FFFF) :
    EncodeRune r = [240 + r / 262144, 128 + r / 4096 % 64, 128 + r / 64 % 64, 128 + r % 64] := by
  unfold EncodeRune MaxRune
  rw [if_neg (by omega), if_neg (by omega), if_neg (by omega), if_neg (by omega)]
  simp only [and_mask6, Nat.shiftRight_eq_div_pow]
  rw [or_f0 _ (by norm_num; omega), or_80 _ (by omega), or_80 _ (by omega), or_80 _ (by omega)]

theorem first_low (s0 : Nat) (h : 0x80 ≤ s0) (hr : s0 < 0xC2) : first s0 = 0xF1 := by
  unfold first
  rw [if_neg (by omega), if_pos hr]

theorem first_high (s0 : Nat) (hr : 0xF5 ≤ s0) : first s0 = 0xF1 := by
  unfold first
  simp only [show ¬ s0 < 0x80 by omega, show ¬ s0 < 0xC2 by omega, show ¬ s0 < 0xE0 by omega,
    show ¬ s0 = 0xE0 by omega, show ¬ s0 < 0xED by omega, show ¬ s0 = 0xED by omega,
    show ¬ s0 < 0xF0 by omega, show ¬ s0 = 0xF0 by omega, show ¬ s0 < 0xF4 by omega,
    show ¬ s0 = 0xF4 by omega, if_false]

theorem first_two (s0 : Nat) (h : 0xC2 ≤ s0) (hr : s0 < 0xE0) : first s0 = 0x02 := by
  unfold first
  rw [if_neg (by omega), if_neg (by omega), if_pos hr]

theorem first_three (s0 : Nat) (h : 0xE0 ≤ s0) (hr : s0 < 0xF0) :
    (s0 = 0xE0 ∧ first s0 = 0x13) ∨ (s0 ≠ 0xE0 ∧ s0 ≠ 0xED ∧ first s0 = 0x03)
      ∨ (s0 = 0xED ∧ first s0 = 0x23) := by
  interval_cases s0 <;> simp [first]

theorem first_four (s0 : Nat) (h : 0xF0 ≤ s0) (hr : s0 < 0xF5) :
    (s0 = 0xF0 ∧ first s0 = 0x34) ∨ (s0 ≠ 0xF0 ∧ s0 ≠ 0xF4 ∧ first s0 = 0x04)
      ∨ (s0 = 0xF4 ∧ first s0 = 0x44) := by
  interval_cases s0 <;> simp [first]

theorem decode_invalid_first (s0 : Nat) (t : List Nat) (h : 0x80 ≤ s0)
    (hr : s0 < 0xC2 ∨ 0xF5 ≤ s0) : DecodeRune (s0 :: t) = (RuneError, 1) := by
  have hf : first s0 = 0xF1 := by
    rcases hr with hr | hr
    · exact first_low s0 h hr
    · exact first_high s0 hr
  simp [DecodeRune, hf]

theorem decode_shape (s0 : Nat) (t : List Nat) (h : 0x80 ≤ s0)
    (hv : ¬ ((DecodeRune (s0 :: t)).1 = RuneError ∧ (DecodeRune (s0 :: t)).2 = 1)) :
    (∃ s1 t1, t = s1 :: t1 ∧ 0xC2 ≤ s0 ∧ s0 < 0xE0 ∧ 0x80 ≤ s1 ∧ s1 ≤ 0xBF) ∨
    (∃ s1 s2 t2, t = s1 :: s2 :: t2 ∧ 0xE0 ≤ s0 ∧ s0 < 0xF0 ∧ 0x80 ≤ s1 ∧ s1 ≤ 0xBF
      ∧ (s0 = 0xE0 → 0xA0 ≤ s1) ∧ (s0 = 0xED → s1 ≤ 0x9F) ∧ 0x80 ≤ s2 ∧ s2 ≤ 0xBF) ∨
    (∃ s1 s2 s3 t3, t = s1 :: s2 :: s3 :: t3 ∧ 0xF0 ≤ s0 ∧ s0 < 0xF5 ∧ 0x80 ≤ s1 ∧ s1 ≤ 0xBF
      ∧ (s0 = 0xF0 → 0x90 ≤ s1) ∧ (s0 = 0xF4 → s1 ≤ 0x8F) ∧ 0x80 ≤ s2 ∧ s2 ≤ 0xBF
      ∧ 0x80 ≤ s3 ∧ s3 ≤ 0xBF) := by
  by_cases hr : s0 < 0xC2 ∨ 0xF5 ≤ s0
  · exact absurd (by rw [decode_invalid_first s0 t h hr]; exact ⟨rfl, rfl⟩) hv
  have hbad : ∀ (P : Prop), (¬ P → DecodeRune (s0 :: t) = (RuneError, 1)) → P := by
    intro P hP
    by_contra hc
    exact hv (by rw [hP hc]; exact ⟨rfl, rfl⟩)
  by_cases h2 : s0 < 0xE0
  · left
    have hf := first_two s0 (by omega) h2
    rcases t with _ | ⟨s1, t1⟩
    · exact absurd (by simp [DecodeRune, hf, and_mask3]) hv
    · refine ⟨s1, t1, rfl, by omega, h2, ?_⟩
      exact hbad (0x80 ≤ s1 ∧ s1 ≤ 0xBF) (fun hc => by
        simp only [DecodeRune, hf]
        simp [acceptRanges, and_mask3, Nat.shiftRight_eq_div_pow]
        omega)
  by_cases h3 : s0 < 0xF0
  · right; left
    rcases t with _ | ⟨s1, _ | ⟨s2, t2⟩⟩
    · exact absurd (by
        rcases first_three s0 (by omega) h3 with ⟨_, hf⟩ | ⟨_, _, hf⟩ | ⟨_, hf⟩ <;>
          simp [DecodeRune, hf, and_mask3]) hv
    · exact absurd (by
        rcases first_three s0 (by omega) h3 with ⟨_, hf⟩ | ⟨_, _, hf⟩ | ⟨_, hf⟩ <;>
          simp [DecodeRune, hf, and_mask3]) hv
    · refine ⟨s1, s2, t2, rfl, by omega, h3, ?_⟩
      exact hbad _ (fun hc => by
        rcases first_three s0 (by omega) h3 with ⟨e, hf⟩ | ⟨e1, e2, hf⟩ | ⟨e, hf⟩
        all_goals
          simp only [DecodeRune, hf]
          simp [acceptRanges, and_mask3, Nat.shiftRight_eq_div_pow]
          omega)
  · right; right
    rcases t with _ | ⟨s1, _ | ⟨s2, _ | ⟨s3, t3⟩⟩⟩
    · exact absurd (by
        rcases first_four s0 (by omega) (by omega) with ⟨_, hf⟩ | ⟨_, _, hf⟩ | ⟨_, hf⟩ <;>
          simp [DecodeRune, hf, and_mask3]) hv
    · exact absurd (by
        rcases first_four s0 (by omega) (by omega) with ⟨_, hf⟩ | ⟨_, _, hf⟩ | ⟨_, hf⟩ <;>
          simp [DecodeRune, hf, and_mask3]) hv
    · exact absurd (by
        rcases first_four s0 (by omega) (by omega) with ⟨_, hf⟩ | ⟨_, _, hf⟩ | ⟨_, hf⟩ <;>
          simp [DecodeRune, hf, and_mask3]) hv
    · refine ⟨s1, s2, s3, t3, rfl, by omega, by omega, ?_⟩
      exact hbad _ (fun hc => by
        rcases first_four s0 (by omega) (by omega) with ⟨e, hf⟩ | ⟨e1, e2, hf⟩ | ⟨e, hf⟩
        all_goals
          simp only [DecodeRune, hf]
          simp [acceptRanges, and_mask3, Nat.shiftRight_eq_div_pow]
          omega)

theorem list2_eq {a b c d : Nat} (h1 : a = c) (h2 : b = d) : [a, b] = [c, d] := by
  subst h1; subst h2; rfl

theorem list3_eq {a b c x y z : Nat} (h1 : a = x) (h2 : b = y) (h3 : c = z) :
    [a, b, c] = [x, y, z] := by
  subst h1; subst h2; subst h3; rfl

theorem list4_eq {a b c d x y z w : Nat} (h1 : a = x) (h2 : b = y) (h3 : c = z) (h4 : d = w) :
    [a, b, c, d] = [x, y, z, w] := by
  subst h1; subst h2; subst h3; subst h4; rfl

/-- A well-formed multi-byte sequence at the head of a string is the encoding
of the rune it decodes to, and decoding depends on that sequence alone. -/
theorem decode_unit (s0 : Nat) (t : List Nat) (h : 0x80 ≤ s0)
    (hv : ¬ ((DecodeRune (s0 :: t)).1 = RuneError ∧ (DecodeRune (s0 :: t)).2 = 1)) :
    ∃ r k u, DecodeRune (s0 :: t) = (r, k) ∧ 2 ≤ k ∧ s0 :: t = EncodeRune r ++ u
      ∧ (EncodeRune r).length = k ∧ 0x80 ≤ r
      ∧ (∀ v, DecodeRune (EncodeRune r ++ v) = (r, k))
      ∧ (∃ e0 e1 et, EncodeRune r = e0 :: e1 :: et ∧ 0x80 ≤ e0) := by
  rcases decode_shape s0 t h hv with ⟨s1, t1, rfl, a0, a1, b0, b1⟩
    | ⟨s1, s2, t2, rfl, a0, a1, b0, b1, ba, bb, c0, c1⟩
    | ⟨s1, s2, s3, t3, rfl, a0, a1, b0, b1, ba, bb, c0, c1, d0, d1⟩
  · have he : EncodeRune (s0 % 32 * 64 + s1 % 64) = [s0, s1] := by
      rw [encode2 _ (by omega) (by omega)]
      exact list2_eq (by omega) (by omega)
    refine ⟨s0 % 32 * 64 + s1 % 64, 2, t1, decode2 s0 s1 t1 a0 a1 b0 b1, le_refl _, ?_, ?_,
      by omega, ?_, ?_⟩
    · rw [he]; rfl
    · rw [he]; rfl
    · intro v; rw [he]; exact decode2 s0 s1 v a0 a1 b0 b1
    · exact ⟨s0, s1, [], he, h⟩
  · have he : EncodeRune (s0 % 16 * 4096 + s1 % 64 * 64 + s2 % 64) = [s0, s1, s2] := by
      rw [encode3 _ (by omega) (by omega) (by omega)]
      exact list3_eq (by omega) (by omega) (by omega)
    refine ⟨s0 % 16 * 4096 + s1 % 64 * 64 + s2 % 64, 3, t2,
      decode3 s0 s1 s2 t2 a0 a1 b0 b1 ba bb c0 c1, by omega, ?_, ?_, by omega, ?_, ?_⟩
    · rw [he]; rfl
    · rw [he]; rfl
    · intro v; rw [he]; exact decode3 s0 s1 s2 v a0 a1 b0 b1 ba bb c0 c1
    · exact ⟨s0, s1, [s2], he, h⟩
  · have he : EncodeRune (s0 % 8 * 262144 + s1 % 64 * 4096 + s2 % 64 * 64 + s3 % 64)
        = [s0, s1, s2, s3] := by
      rw [encode4 _ (by omega) (by omega)]
      exact list4_eq (by omega) (by omega) (by omega) (by omega)
    refine ⟨s0 % 8 * 262144 + s1 % 64 * 4096 + s2 % 64 * 64 + s3 % 64, 4, t3,
      decode4 s0 s1 s2 s3 t3 a0 a1 b0 b1 ba bb c0 c1 d0 d1, by omega, ?_, ?_, by omega, ?_, ?_⟩
    · rw [he]; rfl
    · rw [he]; rfl
    · intro v; rw [he]; exact decode4 s0 s1 s2 s3 v a0 a1 b0 b1 ba bb c0 c1 d0 d1
    · exact ⟨s0, s1, [s2, s3], he, h⟩

/-- Decoding looks at no more than the first four bytes. -/
theorem decode_take4 (s : List Nat) : DecodeRune (s.take 4) = DecodeRune s := by
  rcases s with _ | ⟨a, _ | ⟨b, _ | ⟨c, _ | ⟨d, t⟩⟩⟩⟩
  · rfl
  · rfl
  · rfl
  · rfl
  · show DecodeRune [a, b, c, d] = DecodeRune (a :: b :: c :: d :: t)
    by_cases ha : a < 0x80
    · have hf : first a = 0xF0 := by unfold first; rw [if_pos ha]
      simp [DecodeRune, hf]
    · have ha' : 0x80 ≤ a := by omega
      by_cases hv : (DecodeRune (a :: b :: c :: d :: t)).1 = RuneError
          ∧ (DecodeRune (a :: b :: c :: d :: t)).2 = 1
      · by_cases hv' : (DecodeRune [a, b, c, d]).1 = RuneError ∧ (DecodeRune [a, b, c, d]).2 = 1
        · exact Prod.ext (hv'.1.trans hv.1.symm) (hv'.2.trans hv.2.symm)
        · exfalso
          rcases decode_shape a [b, c, d] ha' hv' with ⟨s1, t1, e, a0, a1, b0, b1⟩
            | ⟨s1, s2, t2, e, a0, a1, b0, b1, ba, bb, c0, c1⟩
            | ⟨s1, s2, s3, t3, e, a0, a1, b0, b1, ba, bb, c0, c1, d0, d1⟩
          · simp only [List.cons.injEq] at e
            obtain ⟨rfl, -⟩ := e
            rw [decode2 a b _ a0 a1 b0 b1] at hv
            exact absurd hv.2 (by simp)
          · simp only [List.cons.injEq] at e
            obtain ⟨rfl, rfl, -⟩ := e
            rw [decode3 a b c _ a0 a1 b0 b1 ba bb c0 c1] at hv
            exact absurd hv.2 (by simp)
          · simp only [List.cons.injEq] at e
            obtain ⟨rfl, rfl, rfl, -⟩ := e
            rw [decode4 a b c d _ a0 a1 b0 b1 ba bb c0 c1 d0 d1] at hv
            exact absurd hv.2 (by simp)
      · rcases decode_shape a (b :: c :: d :: t) ha' hv with ⟨s1, t1, e, a0, a1, b0, b1⟩
          | ⟨s1, s2, t2, e, a0, a1, b0, b1, ba, bb, c0, c1⟩
          | ⟨s1, s2, s3, t3, e, a0, a1, b0, b1, ba, bb, c0, c1, d0, d1⟩
        · simp only [List.cons.injEq] at e
          obtain ⟨rfl, -⟩ := e
          rw [decode2 a b _ a0 a1 b0 b1, decode2 a b _ a0 a1 b0 b1]
        · simp only [List.cons.injEq] at e
          obtain ⟨rfl, rfl, -⟩ := e
          rw [decode3 a b c _ a0 a1 b0 b1 ba bb c0 c1, decode3 a b c _ a0 a1 b0 b1 ba bb c0 c1]
        · simp only [List.cons.injEq] at e
          obtain ⟨rfl, rfl, rfl, -⟩ := e
          rw [decode4 a b c d _ a0 a1 b0 b1 ba bb c0 c1 d0 d1,
            decode4 a b c d _ a0 a1 b0 b1 ba bb c0 c1 d0 d1]

/-! ## The string literal reads back -/

theorem escaped_cases (b : Nat) (hb : b < 0x80) (hs : htmlSafeSet b = false) :
    b < 0x20 ∨ b = 0x22 ∨ b = 0x26 ∨ b = 0x3C ∨ b = 0x3E ∨ b = 0x5C := by
  simp [htmlSafeSet] at hs
  omega

theorem unquote_escape (b : Nat) (hb : b < 0x80) (hs : htmlSafeSet b = false) (fuel : Nat)
    (X : List Nat) (out : GoString) :
    unquoteLoop (fuel + 1) (escapeByte b ++ X) out = unquoteLoop fuel X (out ++ [b]) := by
  rcases escaped_cases b hb hs with h | h | h | h | h | h
  · clear hs hb
    interval_cases b <;> rfl
  all_goals
    subst h
    rfl

theorem escapeByte_length (b : Nat) : 1 ≤ (escapeByte b).length := by
  unfold escapeByte
  split_ifs <;> simp [lit]

theorem unquote_safe (b : Nat) (hb : b < 0x80) (hs : htmlSafeSet b = true) (fuel : Nat)
    (X : List Nat) (out : GoString) :
    unquoteLoop (fuel + 1) (b :: X) out = unquoteLoop fuel X (out ++ [b]) := by
  simp [htmlSafeSet] at hs
  simp only [unquoteLoop, RuneSelf]
  rw [if_neg (by omega), if_neg (by omega), if_neg (by omega), if_pos (by omega)]

theorem unquote_close (fuel : Nat) (tail : List Nat) (out : GoString) :
    unquoteLoop (fuel + 1) (0x22 :: tail) out = some (out, tail) := by
  simp [unquoteLoop]

theorem unquote_rune (e0 : Nat) (Y : List Nat) (h : 0x80 ≤ e0) (fuel : Nat) (out : GoString) :
    unquoteLoop (fuel + 1) (e0 :: Y) out
      = unquoteLoop fuel ((e0 :: Y).drop (DecodeRune (e0 :: Y)).2)
          (out ++ EncodeRune (DecodeRune (e0 :: Y)).1) := by
  simp only [unquoteLoop, RuneSelf]
  rw [if_neg (by omega), if_neg (by omega), if_neg (by omega), if_neg (by omega)]

theorem unquote_u2028 (fuel : Nat) (Y : List Nat) (out : GoString) :
    unquoteLoop (fuel + 1) (lit "\\u202" ++ [hex (0x2028 &&& 0xF)] ++ Y) out
      = unquoteLoop fuel Y (out ++ EncodeRune 0x2028) := by
  rfl

theorem unquote_u2029 (fuel : Nat) (Y : List Nat) (out : GoString) :
    unquoteLoop (fuel + 1) (lit "\\u202" ++ [hex (0x2029 &&& 0xF)] ++ Y) out
      = unquoteLoop fuel Y (out ++ EncodeRune 0x2029) := by
  rfl

/-- Scanning the encoding of a well-formed string gives the string back. -/
theorem unquote_appendStringLoop (n : Nat) : ∀ (s : GoString), s.length ≤ n →
    validLoop n s = true → ∀ (fuel : Nat) (tail : List Nat) (out : GoString),
      (appendStringLoop n s ++ 0x22 :: tail).length ≤ fuel →
      unquoteLoop fuel (appendStringLoop n s ++ 0x22 :: tail) out = some (out ++ s, tail) := by
  induction n with
  | zero =>
    intro s hlen _ fuel tail out hfuel
    have hs : s = [] := List.length_eq_zero.mp (Nat.le_zero.mp hlen)
    subst hs
    obtain ⟨f, rfl⟩ : ∃ f, fuel = f + 1 := ⟨fuel - 1, by simp [appendStringLoop] at hfuel; omega⟩
    simp [appendStringLoop, unquote_close]
  | succ n ih =>
    intro s hlen hv fuel tail out hfuel
    rcases s with _ | ⟨b, rest⟩
    · obtain ⟨f, rfl⟩ : ∃ f, fuel = f + 1 := ⟨fuel - 1, by simp [appendStringLoop] at hfuel; omega⟩
      simp [appendStringLoop, unquote_close]
    · have hrest : rest.length ≤ n := by simpa using hlen
      by_cases hb : b < RuneSelf
      · have hv' : validLoop n rest = true := by
          simpa [validLoop, hb] using hv
        by_cases hs : htmlSafeSet b = true
        · have e : appendStringLoop (n + 1) (b :: rest) = b :: appendStringLoop n rest := by
            simp [appendStringLoop, hb, hs]
          rw [e] at hfuel ⊢
          obtain ⟨f, rfl⟩ : ∃ f, fuel = f + 1 := ⟨fuel - 1, by simp at hfuel; omega⟩
          rw [List.cons_append, unquote_safe b hb hs, ih rest hrest hv' f tail _
            (by simp at hfuel ⊢; omega)]
          simp
        · have hs' : htmlSafeSet b = false := by simpa using hs
          have e : appendStringLoop (n + 1) (b :: rest)
              = escapeByte b ++ appendStringLoop n rest := by
            simp [appendStringLoop, hb, hs']
          rw [e] at hfuel ⊢
          have := escapeByte_length b
          obtain ⟨f, rfl⟩ : ∃ f, fuel = f + 1 := ⟨fuel - 1, by simp at hfuel; omega⟩
          rw [List.append_assoc, unquote_escape b hb hs', ih rest hrest hv' f tail _
            (by simp at hfuel ⊢; omega)]
          simp
      · have hb' : 0x80 ≤ b := by simpa [RuneSelf] using hb
        have hvalid : ¬ ((DecodeRune (b :: rest)).1 = RuneError
            ∧ (DecodeRune (b :: rest)).2 = 1) := by
          intro hc
          simp [validLoop, hb, hc] at hv
        have hv' : validLoop n ((b :: rest).drop (DecodeRune (b :: rest)).2) = true := by
          simpa [validLoop, hb, hvalid] using hv
        obtain ⟨r, k, u, hd, hk, hsplit, hklen, hr, hpre, e0, e1, et, henc, he0⟩ :=
          decode_unit b rest hb' hvalid
        rw [hd] at hv' hvalid
        simp only at hv' hvalid
        rw [hsplit, List.drop_left' hklen] at hv'
        have hu : u.length ≤ n := by
          have := congrArg List.length hsplit
          simp at this hlen
          omega
        have e : appendStringLoop (n + 1) (b :: rest)
            = if r = 0x2028 ∨ r = 0x2029 then
                lit "\\u202" ++ [hex (r &&& 0xF)] ++ appendStringLoop n u
              else EncodeRune r ++ appendStringLoop n u := by
          rw [appendStringLoop, if_neg hb, decode_take4, hd]
          simp only
          rw [if_neg hvalid, hsplit, List.drop_left' hklen, List.take_left' hklen]
        rw [e] at hfuel ⊢
        have hstep : ∀ (f : Nat) (Y : List Nat) (o : GoString),
            unquoteLoop (f + 1) (EncodeRune r ++ Y) o = unquoteLoop f Y (o ++ EncodeRune r) := by
          intro f Y o
          have h1 := unquote_rune e0 (e1 :: et ++ Y) he0 f o
          have h2 : e0 :: (e1 :: et ++ Y) = EncodeRune r ++ Y := by rw [henc]; rfl
          rw [h2, hpre Y] at h1
          simp only at h1
          rw [List.drop_left' hklen] at h1
          exact h1
        have hfin : ∀ o : GoString, o ++ EncodeRune r ++ u = o ++ b :: rest := by
          intro o; rw [hsplit, List.append_assoc]
        by_cases hesc : r = 0x2028 ∨ r = 0x2029
        · rw [if_pos hesc] at hfuel ⊢
          obtain ⟨f, rfl⟩ : ∃ f, fuel = f + 1 := ⟨fuel - 1, by simp [lit] at hfuel; omega⟩
          have hf : (appendStringLoop n u ++ 0x22 :: tail).length ≤ f := by
            simp [lit] at hfuel ⊢; omega
          rw [List.append_assoc]
          rcases hesc with h8 | h9
          · subst h8
            rw [unquote_u2028, ih u hu hv' f tail _ hf, hfin]
          · subst h9
            rw [unquote_u2029, ih u hu hv' f tail _ hf, hfin]
        · rw [if_neg hesc] at hfuel ⊢
          have hl : 2 ≤ (EncodeRune r).length := by omega
          obtain ⟨f, rfl⟩ : ∃ f, fuel = f + 1 := ⟨fuel - 1, by simp at hfuel; omega⟩
          have hf : (appendStringLoop n u ++ 0x22 :: tail).length ≤ f := by
            simp at hfuel ⊢; omega
          rw [List.append_assoc, hstep, ih u hu hv' f tail _ hf, hfin]

/-- The string literal written by `appendString` for a well-formed string
reads back as that string. -/
theorem parseString_appendString (s : GoString) (hv : ValidString s = true) (tail : List Nat) :
    parseString (appendString s ++ tail) = some (s, tail) := by
  have h := unquote_appendStringLoop s.length s (le_refl _) hv
    (appendStringLoop s.length s ++ 0x22 :: tail).length tail [] (le_refl _)
  simpa [parseString, appendString] using h

theorem skipSpace_appendString (s : GoString) (tail : List Nat) :
    skipSpace (appendString s ++ tail) = appendString s ++ tail := by
  simp [appendString, skipSpace, isSpace]

theorem skipSpace_cons (c : Nat) (rest : List Nat) (h : isSpace c = false) :
    skipSpace (c :: rest) = c :: rest := by
  simp [skipSpace, h]

/-- Round trip of `Marshal` and `Unmarshal` on well-formed UTF-8. -/
theorem unmarshal_marshal (s : GoString) (hv : ValidString s = true) :
    Unmarshal (Marshal ⟨s⟩) = some ⟨s⟩ := by
  have hk : appendString (lit "leader") = [34, 108, 101, 97, 100, 101, 114, 34] := by decide
  have hm : Marshal ⟨s⟩
      = 0x7B :: (appendString (lit "leader") ++ (0x3A :: (appendString s ++ [0x7D]))) := by
    rw [hk]; simp [Marshal, lit]
  have hlen : ∃ m, (Marshal ⟨s⟩).length = m + 1 := ⟨_, by rw [hm]; rfl⟩
  obtain ⟨m, hm'⟩ := hlen
  have hq : ∃ q, appendString (lit "leader") ++ (0x3A :: (appendString s ++ [0x7D])) = 0x22 :: q :=
    ⟨_, by rw [hk]; rfl⟩
  obtain ⟨q, hq⟩ := hq
  have hp1 := parseString_appendString (lit "leader") (by decide) (0x3A :: (appendString s ++ [0x7D]))
  have hp2 := parseString_appendString s hv [0x7D]
  unfold Unmarshal
  rw [hm', hm, hq, skipSpace_cons 0x7B _ (by decide)]
  simp only [ne_eq, not_true_eq_false, if_false]
  rw [skipSpace_cons 0x22 _ (by decide)]
  simp only [show ¬ ((0x22 : Nat) = 0x7D) by decide, if_false]
  rw [← hq, decodeMembers, hp1]
  simp only
  rw [skipSpace_cons 0x3A _ (by decide)]
  simp only [ne_eq, not_true_eq_false, if_false]
  rw [skipSpace_appendString, hp2]
  simp only
  rw [skipSpace_cons 0x7D _ (by decide)]
  simp [skipSpace]

/-! ## Start-up and exit -/

/-- Claim C1. `validateFlags` returns the error "missing flag --lease-name"
exactly when the lease name is empty, and then `main` ends in `errors.Must`
with no effect performed: no client built, no elector created or started, no
updater started and no listener bound. For a non-empty lease name
`validateFlags` returns nil. -/
theorem validateFlags_missing_lease_name (w : World) (f : Flags) :
    (validateFlags f = some (.leaf 1 "missing flag --lease-name") ↔ f.leaseName = lit "")
    ∧ ((validateFlags f).isSome = true ↔ f.leaseName = lit "")
    ∧ (f.leaseName = lit "" →
        main w f = ([], .mustAbort (.leaf 1 "missing flag --lease-name"))
        ∧ (main w f).2.nonZero = true)
    ∧ (f.leaseName ≠ lit "" → validateFlags f = none) := by
  by_cases h : f.leaseName = lit ""
  · simp [validateFlags, main, h, errMissingLeaseName, Outcome.nonZero]
  · simp [validateFlags, h]

/-- Instance of C1 at the default flags, where the lease name is empty. -/
theorem validateFlags_missing_lease_name_witness :
    main sampleWorld (defaultFlags (lit "holder-1"))
        = ([], .mustAbort (.leaf 1 "missing flag --lease-name"))
      ∧ (main sampleWorld (defaultFlags (lit "holder-1"))).2.nonZero = true :=
  (validateFlags_missing_lease_name sampleWorld (defaultFlags (lit "holder-1"))).2.2.1 (by decide)

/-- Claim C6. Once the flags are valid, the client is built and the elector
is created, `main` ends with a non-zero status (in `logger.Fatal`) exactly
when `errors.Is(err, http.ErrServerClosed)` is false for the error returned
by `serveHTTP`; when that error is `http.ErrServerClosed` or wraps it, `main`
returns, with status zero. -/
theorem exit_decision (w : World) (f : Flags) (hv : validateFlags f = none)
    (hc : ∃ cs, buildClient w f = .ok cs)
    (he : NewLeaderElector w.jitter (electionConfig f) = none) :
    ((main w f).2.nonZero = true ↔ errorsIs (serveHTTP w f).2 ErrServerClosed = false)
    ∧ ((main w f).2 = .fatal (serveHTTP w f).2 ↔ errorsIs (serveHTTP w f).2 ErrServerClosed = false)
    ∧ ((main w f).2 = .returned ↔ errorsIs (serveHTTP w f).2 ErrServerClosed = true)
    ∧ ((serveHTTP w f).2 = some ErrServerClosed → (main w f).2 = .returned)
    ∧ (∀ i t, (serveHTTP w f).2 = some (.wrap i t ErrServerClosed) → (main w f).2 = .returned) := by
  obtain ⟨cs, hc⟩ := hc
  have hm : (main w f).2 = if errorsIs (serveHTTP w f).2 ErrServerClosed then .returned
      else .fatal (serveHTTP w f).2 := by
    simp [main, hv, hc, runLeaderElection, he]
  rw [hm]
  refine ⟨?_, ?_, ?_, ?_, ?_⟩
  · cases h : errorsIs (serveHTTP w f).2 ErrServerClosed <;> simp [Outcome.nonZero]
  · cases h : errorsIs (serveHTTP w f).2 ErrServerClosed <;> simp
  · cases h : errorsIs (serveHTTP w f).2 ErrServerClosed <;> simp
  · intro h; rw [h]; rfl
  · intro i t h; rw [h]; simp [errorsIs, GoError.chainHas, ErrServerClosed]

/-- Instance of C6 in a world whose listener ends with an error wrapping
`http.ErrServerClosed`: `main` returns. -/
theorem exit_decision_witness : (main sampleWorld sampleFlags).2 = .returned :=
  (exit_decision sampleWorld sampleFlags (by decide) ⟨⟨0⟩, rfl⟩ (by decide)).2.2.2.2
    20 "serve" (by decide)

/-! ## The HTTP surface -/

theorem serve_healthz (leader : GoString) (r : Request) (hp : r.path = lit "/healthz") :
    serve leader r = some (healthHandler newResponseWriter r) := by
  simp [serve, muxHandler, hp]

theorem serve_readyz (leader : GoString) (r : Request) (hp : r.path = lit "/readyz") :
    serve leader r = some (healthHandler newResponseWriter r) := by
  have h : lit "/readyz" ≠ lit "/healthz" := by decide
  simp [serve, muxHandler, hp, h]

theorem serve_leader (leader : GoString) (r : Request) (hp : r.path = lit "/api/leader") :
    serve leader r = some (leaderHandler leader newResponseWriter r) := by
  have h1 : lit "/api/leader" ≠ lit "/healthz" := by decide
  have h2 : lit "/api/leader" ≠ lit "/readyz" := by decide
  simp [serve, muxHandler, hp, h1, h2]

theorem notFound_fresh : NotFound newResponseWriter = notFoundResponse := by decide

theorem marshal_head (s : GoString) : ∃ t, Marshal ⟨s⟩ = 0x7B :: t :=
  ⟨_, rfl⟩

/-- Claim C2. For every GET request to `/healthz` or `/readyz` and every
value of the variable `leader`, the response has status 200 and the body is
exactly "ok\n". -/
theorem health_get_ok (leader : GoString) (r : Request) (hm : r.method = lit "GET")
    (hp : r.path = lit "/healthz" ∨ r.path = lit "/readyz") :
    serve leader r = some { header := [], status := some 200, body := lit "ok\n" } := by
  have hh : healthHandler newResponseWriter r
      = { header := [], status := some 200, body := lit "ok\n" } := by
    simp [healthHandler, hm]
    decide
  rcases hp with hp | hp
  · rw [serve_healthz leader r hp, hh]
  · rw [serve_readyz leader r hp, hh]

/-- Instance of C2: a GET of `/readyz` while the leader is unknown. -/
theorem health_get_ok_witness :
    serve (lit "") { method := lit "GET", path := lit "/readyz" }
      = some { header := [], status := some 200, body := lit "ok\n" } :=
  health_get_ok (lit "") { method := lit "GET", path := lit "/readyz" } rfl (Or.inr rfl)

/-- Claim C3. For every request whose method is not GET, each of the routes
`/healthz`, `/readyz` and `/api/leader` answers with status 404, not 200; the
body is the not-found text: neither "ok\n" nor the JSON payload of any leader. -/
theorem non_get_not_found (leader : GoString) (r : Request) (hm : r.method ≠ lit "GET")
    (hp : r.path = lit "/healthz" ∨ r.path = lit "/readyz" ∨ r.path = lit "/api/leader") :
    ∃ w, serve leader r = some w ∧ w.status = some 404 ∧ w.status ≠ some 200
      ∧ w.body = lit "404 page not found\n" ∧ w.body ≠ lit "ok\n"
      ∧ ∀ s, w.body ≠ Marshal { Leader := s } := by
  refine ⟨notFoundResponse, ?_, rfl, by decide, rfl, by decide, ?_⟩
  · rcases hp with hp | hp | hp
    · rw [serve_healthz leader r hp]; simp [healthHandler, hm, notFound_fresh]
    · rw [serve_readyz leader r hp]; simp [healthHandler, hm, notFound_fresh]
    · rw [serve_leader leader r hp]; simp [leaderHandler, hm, notFound_fresh]
  · intro s h
    obtain ⟨t, ht⟩ := marshal_head s
    rw [ht] at h
    exact absurd (List.head_eq_of_cons_eq h) (by decide)

/-- Instance of C3: a POST to `/api/leader`. -/
theorem non_get_not_found_witness :
    ∃ w, serve (lit "holder-1") { method := lit "POST", path := lit "/api/leader" } = some w
      ∧ w.status = some 404 ∧ w.status ≠ some 200
      ∧ w.body = lit "404 page not found\n" ∧ w.body ≠ lit "ok\n"
      ∧ ∀ s, w.body ≠ Marshal { Leader := s } :=
  non_get_not_found (lit "holder-1") { method := lit "POST", path := lit "/api/leader" }
    (by decide) (Or.inr (Or.inr rfl))

theorem leaderHandler_get (leader : GoString) (r : Request) (hm : r.method = lit "GET") :
    leaderHandler leader newResponseWriter r
      = { header := [(lit "Content-Type", lit "application/json")], status := some 200,
          body := Marshal { Leader := leader } } := by
  simp [leaderHandler, hm, newResponseWriter, ResponseWriter.set, ResponseWriter.WriteHeader,
    ResponseWriter.Write]

/-- Claim C4, as stated, fails: for the leader identity consisting of the
single byte 0xFF the body of the response is the object whose value is the
escape of U+FFFD, and decoding it yields the three bytes of U+FFFD, not the
identity. -/
theorem leader_round_trip_counterexample :
    serve [0xFF] { method := lit "GET", path := lit "/api/leader" }
        = some { header := [(lit "Content-Type", lit "application/json")], status := some 200,
                 body := lit "\x7b\"leader\":\"\\ufffd\"\x7d" }
      ∧ Unmarshal (lit "\x7b\"leader\":\"\\ufffd\"\x7d") = some { Leader := [0xEF, 0xBF, 0xBD] }
      ∧ Unmarshal (Marshal { Leader := [0xFF] }) ≠ some { Leader := [0xFF] } := by
  decide

/-- Claim C4, amended. For every GET request to `/api/leader` and every
leader identity `s` the response has status 200, content type
`application/json`, and as body the JSON object with the single key `leader`
whose value is the JSON string literal for `s`; for `s` well-formed UTF-8,
decoding the body as a `LeaderResponse` yields `Leader = s`; for the empty
`s` the body is exactly the object with the empty string as value. -/
theorem leader_get_round_trip (s : GoString) (r : Request) (hm : r.method = lit "GET")
    (hp : r.path = lit "/api/leader") :
    serve s r = some { header := [(lit "Content-Type", lit "application/json")],
                       status := some 200, body := Marshal { Leader := s } }
      ∧ Marshal { Leader := s } = lit "\x7b\"leader\":" ++ appendString s ++ lit "\x7d"
      ∧ (ValidString s = true → Unmarshal (Marshal { Leader := s }) = some { Leader := s })
      ∧ (s = lit "" → Marshal { Leader := s } = lit "\x7b\"leader\":\"\"\x7d") := by
  refine ⟨?_, rfl, unmarshal_marshal s, ?_⟩
  · rw [serve_leader s r hp, leaderHandler_get s r hm]
  · intro h; subst h; decide

/-- Instance of C4 at an identity with two-, three- and four-byte runes. -/
theorem leader_get_round_trip_witness :
    Unmarshal (Marshal { Leader := [0x61, 0xC3, 0xA9, 0xE2, 0x82, 0xAC, 0xF0, 0x9F, 0x98, 0x80] })
      = some { Leader := [0x61, 0xC3, 0xA9, 0xE2, 0x82, 0xAC, 0xF0, 0x9F, 0x98, 0x80] } :=
  (leader_get_round_trip [0x61, 0xC3, 0xA9, 0xE2, 0x82, 0xAC, 0xF0, 0x9F, 0x98, 0x80]
    { method := lit "GET", path := lit "/api/leader" } rfl rfl).2.2.1 (by decide)

/-! ## The updater -/

theorem updaterLoop_leader (evs : List Event) : ∀ u : Updater,
    (updaterLoop u evs).1.leader = (evs.filterMap Event.identity?).getLastD u.leader := by
  induction evs with
  | nil => intro u; rfl
  | cons e es ih =>
    intro u
    cases e with
    | newLeader l =>
      simp only [updaterLoop, updaterBody, ih, List.filterMap_cons, Event.identity?]
      cases h : List.filterMap Event.identity? es <;> simp [List.getLastD]
    | done =>
      simp [updaterLoop, updaterBody, ih, List.filterMap_cons, Event.identity?]

/-- Claim C5 on the code. In the updater goroutine itself the variable
`leader` holds the last identity received, the empty string when none was.
A leader query runs on another goroutine and reads the variable with no
synchronisation, so it is not bound to that value: after the identities
`holder-10` and `node-2` were received, in this order, a query may observe
the earlier write and report `holder-10`, may observe the initial write and
report the empty string, and may observe the data of one write with the
length of the other and report `holder`, which was never delivered. -/
theorem leader_read_unsynchronised :
    (∀ evs : List Event,
        (updaterLoop initUpdater evs).1.leader = (leaderWrites evs).getLastD (lit ""))
    ∧ (∀ evs i, racyRead evs i i = (leaderWrites evs)[i]?)
    ∧ (updaterLoop initUpdater twoLeaders).1.leader = lit "node-2"
    ∧ serveRacy twoLeaders 1 1 { method := lit "GET", path := lit "/api/leader" }
        = some { header := [(lit "Content-Type", lit "application/json")], status := some 200,
                 body := Marshal { Leader := lit "holder-10" } }
    ∧ serveRacy twoLeaders 0 0 { method := lit "GET", path := lit "/api/leader" }
        = some { header := [(lit "Content-Type", lit "application/json")], status := some 200,
                 body := Marshal { Leader := lit "" } }
    ∧ serveRacy twoLeaders 1 2 { method := lit "GET", path := lit "/api/leader" }
        = some { header := [(lit "Content-Type", lit "application/json")], status := some 200,
                 body := Marshal { Leader := lit "holder" } }
    ∧ Marshal { Leader := lit "holder-10" } ≠ Marshal { Leader := lit "node-2" }
    ∧ Marshal { Leader := lit "" } ≠ Marshal { Leader := lit "node-2" }
    ∧ Marshal { Leader := lit "holder" } ≠ Marshal { Leader := lit "node-2" } := by
  refine ⟨?_, ?_, by decide, by decide, by decide, by decide, by decide, by decide, by decide⟩
  · intro evs
    rw [updaterLoop_leader, leaderWrites, List.getLastD_cons]
    rfl
  · intro evs i
    unfold racyRead
    cases h : (leaderWrites evs)[i]? with
    | none => rfl
    | some d => simp

/-! ## The elector configuration -/

/-- Claim C7, as stated, fails: the flags `--lease-name=demo
--lease-duration=5s --lease-renew-duration=10s` pass `validateFlags`, and
`main` hands to `NewLeaderElector` a configuration whose renew deadline is
not below its lease duration. -/
theorem renew_deadline_counterexample :
    validateFlags swappedFlags = none
      ∧ Effect.newLeaderElector (electionConfig swappedFlags) ∈ (main sampleWorld swappedFlags).1
      ∧ ¬ ((electionConfig swappedFlags).renewDeadline
            < (electionConfig swappedFlags).leaseDuration) := by
  decide

/-- Claim C7, amended. Whenever `runLeaderElection` returns without error,
that is whenever `NewLeaderElector` accepted the configuration and the
elector was started, the renew deadline is strictly less than the lease
duration; a configuration without that relation is rejected, no elector is
started and `main` ends in `errors.Must`. The defaults, 5s and 10s, have the
relation. -/
theorem renew_deadline_below_lease (w : World) (f : Flags) :
    ((∃ ch, (runLeaderElection w f).2 = .ok ch) →
        (electionConfig f).renewDeadline < (electionConfig f).leaseDuration
        ∧ (runLeaderElection w f).1
            = [.newLeaderElector (electionConfig f), .goElectorRun (electionConfig f)])
    ∧ (¬ ((electionConfig f).renewDeadline < (electionConfig f).leaseDuration) →
        (∃ err, (runLeaderElection w f).2 = .error err)
        ∧ Effect.goElectorRun (electionConfig f) ∉ (main w f).1
        ∧ (main w f).2.nonZero = true)
    ∧ (∀ uuid name, (electionConfig { defaultFlags uuid with leaseName := name }).renewDeadline
          = 5 * second
        ∧ (electionConfig { defaultFlags uuid with leaseName := name }).leaseDuration = 10 * second
        ∧ (electionConfig { defaultFlags uuid with leaseName := name }).renewDeadline
          < (electionConfig { defaultFlags uuid with leaseName := name }).leaseDuration) := by
  refine ⟨?_, ?_, ?_⟩
  · rintro ⟨ch, hch⟩
    by_cases h : (electionConfig f).leaseDuration ≤ (electionConfig f).renewDeadline
    · simp [runLeaderElection, NewLeaderElector, h] at hch
    · refine ⟨by omega, ?_⟩
      cases hn : NewLeaderElector w.jitter (electionConfig f) with
      | none => simp [runLeaderElection, hn]
      | some err => simp [runLeaderElection, hn] at hch
  · intro h
    have h' : (electionConfig f).leaseDuration ≤ (electionConfig f).renewDeadline := by omega
    have hr : runLeaderElection w f = ([.newLeaderElector (electionConfig f)],
        .error (.wrap 4 "failed to create leader-elector"
          (.leaf 10 "leaseDuration must be greater than renewDeadline"))) := by
      simp [runLeaderElection, NewLeaderElector, h']
    refine ⟨⟨_, by rw [hr]⟩, ?_, ?_⟩
    · unfold main
      cases validateFlags f with
      | some err => simp
      | none =>
        cases buildClient w f with
        | error err => simp
        | ok cs => simp [hr]
    · unfold main
      cases validateFlags f with
      | some err => simp [Outcome.nonZero]
      | none =>
        cases buildClient w f with
        | error err => simp [Outcome.nonZero]
        | ok cs => simp [hr, Outcome.nonZero]
  · intro uuid name
    simp [electionConfig, defaultFlags, second]

/-- Instance of C7 (amended) at the default durations with a lease name. -/
theorem renew_deadline_below_lease_witness :
    (electionConfig sampleFlags).renewDeadline < (electionConfig sampleFlags).leaseDuration
      ∧ (runLeaderElection sampleWorld sampleFlags).1
          = [.newLeaderElector (electionConfig sampleFlags),
             .goElectorRun (electionConfig sampleFlags)] :=
  (renew_deadline_below_lease sampleWorld sampleFlags).1 ⟨makeChan, rfl⟩

/-! ## Shutdown -/

theorem updaterLoop_done (n : Nat) : ∀ u : Updater,
    updaterLoop u (List.replicate n Event.done)
      = ({ u with shutdowns := u.shutdowns ++ List.replicate n gracePeriod,
                  deferred := u.deferred + n }, Control.next) := by
  induction n with
  | zero => intro u; simp [updaterLoop]
  | succ n ih =>
    intro u
    simp only [List.replicate_succ, updaterLoop, updaterBody, ih]
    simp [List.replicate_succ, Nat.add_assoc, Nat.add_comm 1 n]

/-- Claim C8 on the code. No iteration of the updater loop returns, and each
observation of the cancelled context calls `s.Shutdown` again with the grace
period of five seconds: after `n` observations `Shutdown` was called `n`
times and the loop is still running; two observations give two calls. -/
theorem shutdown_called_on_every_observation :
    (∀ u e, (updaterBody u e).2 = Control.next)
    ∧ (∀ n, (updaterLoop initUpdater (List.replicate n Event.done)).1.shutdowns
          = List.replicate n (5 * second)
        ∧ (updaterLoop initUpdater (List.replicate n Event.done)).2 = Control.next)
    ∧ (updaterLoop initUpdater [Event.done, Event.done]).1.shutdowns = [5 * second, 5 * second]
    ∧ (updaterLoop initUpdater [Event.done, Event.done]).1.shutdowns.length ≠ 1 := by
  refine ⟨?_, ?_, by decide, by decide⟩
  · intro u e; cases e <;> rfl
  · intro n
    rw [updaterLoop_done]
    simp [initUpdater, gracePeriod]

/-! ## Delivery on the channel -/

theorem trySend_unbuffered (ch : Chan) (hc : ch.cap = 0) (v : GoString) (ready : Bool) :
    ch.trySend v ready = if ready then some ch else none := by
  simp [Chan.trySend, hc]

theorem onNewLeaderRun_unbuffered (identity : GoString) (sched : Nat → Tick) (n : Nat) :
    onNewLeaderRun makeChan identity sched n
      = (if ∃ k, k < n ∧ (sched k).receiverReady = true then CallbackPC.returned
         else CallbackPC.sending, makeChan) := by
  induction n with
  | zero => simp [onNewLeaderRun]
  | succ n ih =>
    rw [onNewLeaderRun, ih]
    by_cases h : ∃ k, k < n ∧ (sched k).receiverReady = true
    · have h' : ∃ k, k < n + 1 ∧ (sched k).receiverReady = true := by
        obtain ⟨k, hk, hr⟩ := h
        exact ⟨k, by omega, hr⟩
      simp only [if_pos h, if_pos h']
    · simp only [if_neg h]
      by_cases hr : (sched n).receiverReady = true
      · have h' : ∃ k, k < n + 1 ∧ (sched k).receiverReady = true := ⟨n, by omega, hr⟩
        simp [if_pos h', onNewLeaderStep, trySend_unbuffered makeChan rfl, hr]
      · have h' : ¬ ∃ k, k < n + 1 ∧ (sched k).receiverReady = true := by
          rintro ⟨k, hk, hkr⟩
          rcases Nat.lt_succ_iff_lt_or_eq.mp hk with hlt | heq
          · exact h ⟨k, hlt, hkr⟩
          · subst heq; exact hr hkr
        simp [if_neg h', onNewLeaderStep, trySend_unbuffered makeChan rfl, hr]

/-- Claim C9, as stated, fails: the channel returned by `runLeaderElection`
has capacity zero, and under the schedule in which no receiver ever waits and
the context is cancelled the callback `OnNewLeader` stays at its send for
ever; so it is not the case that the callback returns under every schedule. -/
theorem on_new_leader_blocks_counterexample :
    (runLeaderElection sampleWorld sampleFlags).2 = .ok { cap := 0, buf := [] }
      ∧ (∀ n, (onNewLeaderRun makeChan (lit "holder-1") absentConsumer n).1 = CallbackPC.sending)
      ∧ ¬ (∀ sched : Nat → Tick, ∃ n,
            (onNewLeaderRun makeChan (lit "holder-1") sched n).1 = CallbackPC.returned) := by
  have hblock : ∀ n,
      (onNewLeaderRun makeChan (lit "holder-1") absentConsumer n).1 = CallbackPC.sending := by
    intro n
    rw [onNewLeaderRun_unbuffered]
    simp [absentConsumer]
  refine ⟨rfl, hblock, ?_⟩
  intro h
  obtain ⟨n, hn⟩ := h absentConsumer
  rw [hblock n] at hn
  exact absurd hn (by decide)

/-- Claim C9, amended. The channel created by `runLeaderElection` is
unbuffered and the send in `OnNewLeader` is a plain blocking send that does
not observe cancellation: the callback has returned after `n` instants
exactly when a receiver was waiting at one of them, whatever the cancellation
flags of the schedule, and nothing is ever buffered. -/
theorem on_new_leader_returns_iff_received (w : World) (f : Flags) (identity : GoString)
    (sched : Nat → Tick) (n : Nat) :
    ((∃ ch, (runLeaderElection w f).2 = .ok ch) → (runLeaderElection w f).2 = .ok makeChan)
    ∧ makeChan.cap = 0
    ∧ ((onNewLeaderRun makeChan identity sched n).1 = CallbackPC.returned
        ↔ ∃ k, k < n ∧ (sched k).receiverReady = true)
    ∧ (onNewLeaderRun makeChan identity sched n).2.buf = [] := by
  refine ⟨?_, rfl, ?_, ?_⟩
  · rintro ⟨ch, hch⟩
    cases hn : NewLeaderElector w.jitter (electionConfig f) with
    | none => simp [runLeaderElection, hn]
    | some err => simp [runLeaderElection, hn] at hch
  · rw [onNewLeaderRun_unbuffered]
    by_cases h : ∃ k, k < n ∧ (sched k).receiverReady = true
    · simp only [if_pos h, true_iff]; exact h
    · simp only [if_neg h, h, iff_false]; decide
  · rw [onNewLeaderRun_unbuffered]; rfl

/-- Instance of C9 (amended): with a receiver arriving at the third instant
the callback has returned after three instants. -/
theorem on_new_leader_returns_iff_received_witness :
    (runLeaderElection sampleWorld sampleFlags).2 = .ok makeChan
      ∧ (onNewLeaderRun makeChan (lit "holder-1") slowConsumer 3).1 = CallbackPC.returned :=
  ⟨(on_new_leader_returns_iff_received sampleWorld sampleFlags (lit "holder-1") slowConsumer 3).1
      ⟨makeChan, rfl⟩,
    (on_new_leader_returns_iff_received sampleWorld sampleFlags (lit "holder-1") slowConsumer
      3).2.2.1.mpr ⟨2, by decide, by decide⟩⟩

/-- Claim C10 on the code. The elector is always configured with
`ReleaseOnCancel = true` and, unless its constructor fails, started under the
shared context, but `main` does not wait for it: under the schedule signal,
updater, main the process has exited with status zero while the lease record
still names it as holder, and no later step of the elector changes that;
only when the elector is scheduled before `main` returns is the lease
released. -/
theorem exit_before_release :
    (∀ f, (electionConfig f).releaseOnCancel = true)
    ∧ (∀ w f, (∃ err, (runLeaderElection w f).2 = .error err)
        ∨ Effect.goElectorRun (electionConfig f) ∈ (runLeaderElection w f).1)
    ∧ procRun (electionConfig sampleFlags) (leading (electionConfig sampleFlags))
          [Actor.signal, Actor.updater, Actor.mainThread]
        = { cancelled := true, leaseHolder := some (lit "holder-1"), electorRunning := true,
            shutdownCalled := true, exited := some 0 }
    ∧ (procRun (electionConfig sampleFlags) (leading (electionConfig sampleFlags))
          [Actor.signal, Actor.updater, Actor.mainThread, Actor.elector]).leaseHolder
        = some (electionConfig sampleFlags).identity
    ∧ (procRun (electionConfig sampleFlags) (leading (electionConfig sampleFlags))
          [Actor.signal, Actor.elector, Actor.updater, Actor.mainThread]).leaseHolder = none := by
  refine ⟨fun _ => rfl, ?_, by decide, by decide, by decide⟩
  intro w f
  cases hn : NewLeaderElector w.jitter (electionConfig f) with
  | none => right; simp [runLeaderElection, hn]
  | some err =>
    left
    exact ⟨.wrap 4 "failed to create leader-elector" err, by simp [runLeaderElection, hn]⟩

end LeaderElection
